import Mathlib

/-!
# LabPlot: ASCII spreadsheet import filter and tree-view combo box

A shallow embedding of

* `AsciiSpreadsheetImportFilter::importAspect`
  (`src/backend/spreadsheet/AsciiSpreadsheetImportFilter.cpp`), and
* `TreeViewComboBox::eventFilter`
  (`src/commonfrontend/widgets/TreeViewComboBox.cpp`),

together with the properties of the two functions.

Conventions of the embedding.

* A `QString` is a `String`; the null string `QString()` is the empty string.
* A `QStringList` is a `List String`, a `QList<QStringList>` a list of those.
* `QList::operator[]` is a checked access: an index outside the list makes the
  embedded function return `none`.
* The toolkit functions `QString::simplified`, `QString::trimmed`,
  `QString::split` and `tr` are not part of the program; the embedding takes
  them as a parameter (`Toolkit`), so every statement holds whatever these
  functions compute.  `qt` is a concrete model of them, used for evaluation.
* The `QTextStream` over the input device is the list of the lines it still
  has to deliver: `readLine` removes the first of them (and yields the null
  string when there is none), `atEnd` holds when the list is empty.
* `Column`, `Spreadsheet` and `String2DoubleFilter` are declared outside the
  two source files.  A `Column` records the arguments of its constructor and
  the plot designation set on it, a numeric column the locale and the strings
  its values are converted from; a `Spreadsheet` records the columns handed to
  `addChild`, in that order.
* A counted loop takes a bound on its rounds as an argument and yields `none`
  when the bound is used up with the loop condition still true.
-/

namespace LabPlot

/-! ## Toolkit -/

/-- The string functions of the GUI toolkit that the import filter calls. -/
structure Toolkit where
  /-- `QString::simplified()` -/
  simplified : String → String
  /-- `QString::trimmed()` -/
  trimmed : String → String
  /-- `QString::split(sep)`: `split s sep` is `s.split(sep)` -/
  split : String → String → List String
  /-- `QObject::tr` -/
  tr : String → String

/-- `QChar::isSpace`: the ASCII white space characters and the Unicode
separators. -/
def QChar.isSpace (c : Char) : Bool :=
  let u := c.toNat
  u == 0x20 || (0x09 ≤ u && u ≤ 0x0d) || u == 0x85 || u == 0xa0 || u == 0x1680 ||
    (0x2000 ≤ u && u ≤ 0x200a) || u == 0x2028 || u == 0x2029 || u == 0x202f ||
    u == 0x205f || u == 0x3000

/-- `QString::trimmed()` on the characters of a string: white space removed
from both ends. -/
def QString.trimmedChars (cs : List Char) : List Char :=
  ((cs.dropWhile QChar.isSpace).reverse.dropWhile QChar.isSpace).reverse

/-- `QString::simplified()` on the characters of a string: white space removed
from both ends and every inner run of white space replaced by one space.
`started` says that a character has been written, `gap` that white space has
been seen since. -/
def QString.simplifiedChars : Bool → Bool → List Char → List Char
  | _, _, [] => []
  | started, gap, c :: cs =>
    if QChar.isSpace c then QString.simplifiedChars started started cs
    else (if gap then [' ', c] else [c]) ++ QString.simplifiedChars true false cs

/-- `QString::split` for a separator that is not empty, on characters: `skip`
counts the characters of a separator just found that are still to be passed
over, `cur` is the field being read, in reverse. -/
def QString.splitChars (sep : List Char) : Nat → List Char → List Char → List (List Char)
  | _, cur, [] => [cur.reverse]
  | skip + 1, cur, _ :: cs => QString.splitChars sep skip cur cs
  | 0, cur, c :: cs =>
    if sep.isPrefixOf (c :: cs) then
      cur.reverse :: QString.splitChars sep (sep.length - 1) [] cs
    else QString.splitChars sep 0 (c :: cur) cs

/-- `QString::split(sep)` with the default `KeepEmptyParts`.  An empty
separator matches at every position, before the first and after the last
character included. -/
def QString.split (s sep : String) : List String :=
  if sep.data.isEmpty then
    "" :: (s.data.map fun c => String.mk [c]) ++ [""]
  else (QString.splitChars sep.data 0 [] s.data).map String.mk

/-- A model of the toolkit's string functions, following their documentation;
`tr` is taken without a translation installed. -/
def qt : Toolkit where
  simplified s := String.mk (QString.simplifiedChars false false s.data)
  trimmed s := String.mk (QString.trimmedChars s.data)
  split := QString.split
  tr s := s

/-- `QString::number(n)` for an `int` that is not negative: its decimal
representation. -/
def QString.number (n : Nat) : String := toString n

/-! ## The text stream -/

/-- A `QTextStream` over the input device: the lines not read yet. -/
structure QTextStream where
  pending : List String
  deriving DecidableEq, Repr

/-- `QTextStream::atEnd()` -/
def QTextStream.atEnd (s : QTextStream) : Bool := s.pending.isEmpty

/-- `QTextStream::readLine()`: the next line and the stream after it; the null
string when no line is left. -/
def QTextStream.readLine (s : QTextStream) : String × QTextStream :=
  match s.pending with
  | [] => ("", s)
  | line :: rest => (line, ⟨rest⟩)

/-! ## Columns and spreadsheets -/

/-- `QLocale`, by name. -/
structure QLocale where
  name : String
  deriving DecidableEq, Repr

/-- `SciDAVis::PlotDesignation`, the two values the filter sets. -/
inductive PlotDesignation where
  | X
  | Y
  deriving DecidableEq, Repr

/-- The content of a `Column` as the filter creates it: either the string list
handed to the constructor, or the numeric copy of the output of a
`String2DoubleFilter` with the given locale whose input is that string list. -/
inductive ColumnData where
  | text (cells : List String)
  | numeric (locale : QLocale) (source : List String)
  deriving DecidableEq, Repr

/-- A `Column` as the filter creates it. -/
structure Column where
  name : String
  data : ColumnData
  plotDesignation : PlotDesignation
  deriving DecidableEq, Repr

/-- The `Spreadsheet` the filter returns: its name and the columns added to it
with `addChild`, in order. -/
structure Spreadsheet where
  name : String
  children : List Column
  deriving DecidableEq, Repr

/-! ## The import filter -/

/-- The settings of an `AsciiSpreadsheetImportFilter`. -/
structure AsciiSpreadsheetImportFilter where
  m_ignored_lines : Int
  m_separator : String
  m_first_row_names_columns : Bool
  m_trim_whitespace : Bool
  m_simplify_whitespace : Bool
  m_convert_to_numeric : Bool
  m_numeric_locale : QLocale
  deriving DecidableEq, Repr

/-- `AsciiSpreadsheetImportFilter::fileExtensions` -/
def fileExtensions : List String := ["txt", "csv", "dat"]

/-- `QList<QStringList> data` -/
abbrev Table := List (List String)

/-- The white space processing and splitting of one line (lines 58-63 and
78-83 of the source, which are the same). -/
def fields (tk : Toolkit) (f : AsciiSpreadsheetImportFilter) (line : String) : List String :=
  if f.m_simplify_whitespace then tk.split (tk.simplified line) f.m_separator
  else if f.m_trim_whitespace then tk.split (tk.trimmed line) f.m_separator
  else tk.split line f.m_separator

/-- One `row = stream.readLine()....split(m_separator)`: the row and the
stream after the line. -/
def readRow (tk : Toolkit) (f : AsciiSpreadsheetImportFilter) (s : QTextStream) :
    List String × QTextStream :=
  (fields tk f s.readLine.1, s.readLine.2)

/-- `for (i=0; i<m_ignored_lines; i++) stream.readLine();` with the number of
rounds of the loop as first argument. -/
def skipIgnored : Nat → QTextStream → QTextStream
  | 0, s => s
  | n + 1, s => skipIgnored n s.readLine.2

/-- `for (int i=0; i<row.size(); i++) data << QStringList();` with the number
of rounds of the loop as first argument. -/
def initData : Nat → Table → Table
  | 0, data => data
  | n + 1, data => initData n (data ++ [[]])

/-- `data[i] << s`, `none` when `i` is not an index of `data`. -/
def appendCell (data : Table) (i : Nat) (s : String) : Option Table :=
  if h : i < data.length then some (data.set i (data[i] ++ [s])) else none

/-- The loop of lines 71-74,
`for (i=0; i<row.size(); ++i) { column_names << QString::number(i+1); data[i] << row[i]; }`
from index `i` on; the first argument bounds the number of rounds. -/
def firstRowLoop (row : List String) : Nat → Nat → List String → Table →
    Option (List String × Table)
  | 0, i, column_names, data =>
    if i < row.length then none else some (column_names, data)
  | fuel + 1, i, column_names, data =>
    if i < row.length then
      match row[i]? with
      | none => none
      | some cell =>
        match appendCell data i cell with
        | none => none
        | some data1 =>
          firstRowLoop row fuel (i + 1) (column_names ++ [QString.number (i + 1)]) data1
    else some (column_names, data)

/-- The loop of lines 85-86,
`for (i=0; i<row.size() && i<data.size(); ++i) data[i] << row[i];`
from index `i` on; it returns the final `i` too, which the next loop re-uses.
The first argument bounds the number of rounds. -/
def copyLoop (row : List String) : Nat → Nat → Table → Option (Nat × Table)
  | 0, i, data =>
    if i < row.length ∧ i < data.length then none else some (i, data)
  | fuel + 1, i, data =>
    if i < row.length ∧ i < data.length then
      match row[i]? with
      | none => none
      | some cell =>
        match appendCell data i cell with
        | none => none
        | some data1 => copyLoop row fuel (i + 1) data1
    else some (i, data)

/-- The loop of lines 88-89, `for (; i<data.size(); ++i) data[i] << QString();`
The first argument bounds the number of rounds. -/
def padLoop : Nat → Nat → Table → Option Table
  | 0, i, data => if i < data.length then none else some data
  | fuel + 1, i, data =>
    if i < data.length then
      match appendCell data i "" with
      | none => none
      | some data1 => padLoop fuel (i + 1) data1
    else some data

/-- The body of the `while` loop after the row is read (lines 85-89). -/
def appendRow (row : List String) (data : Table) : Option Table :=
  match copyLoop row row.length 0 data with
  | none => none
  | some (i, data1) => padLoop data1.length i data1

/-- The loop `while (!stream.atEnd()) { ... }` of lines 77-90.  The first
argument bounds the number of rounds. -/
def readRest (tk : Toolkit) (f : AsciiSpreadsheetImportFilter) :
    Nat → QTextStream → Table → Option Table
  | 0, s, data => if s.atEnd then some data else none
  | fuel + 1, s, data =>
    if s.atEnd then some data
    else
      match appendRow (readRow tk f s).1 data with
      | none => none
      | some data1 => readRest tk f fuel (readRow tk f s).2 data1

/-- Lines 46-90 of `importAspect`: the local variables `column_names` and
`data` when the `while` loop has ended.  `input` holds the lines that the text
stream over the input device delivers. -/
def gather (tk : Toolkit) (f : AsciiSpreadsheetImportFilter) (input : List String) :
    Option (List String × Table) :=
  let stream : QTextStream := ⟨input⟩
  -- skip ignored lines
  let stream := skipIgnored f.m_ignored_lines.toNat stream
  -- read first row
  let row := (readRow tk f stream).1
  let stream := (readRow tk f stream).2
  -- initialize data and determine column names
  let data := initData row.length []
  match (if f.m_first_row_names_columns then some (row, data)
         else firstRowLoop row row.length 0 [] data) with
  | none => none
  | some (column_names, data1) =>
    -- read rest of data
    match readRest tk f stream.pending.length stream data1 with
    | none => none
    | some data2 => some (column_names, data2)

/-- The column that one round of the loop of lines 95-114 creates for index
`i`. -/
def newColumn (f : AsciiSpreadsheetImportFilter) (i : Nat) (name : String)
    (cells : List String) : Column :=
  { name := name
    data := if f.m_convert_to_numeric then .numeric f.m_numeric_locale cells else .text cells
    plotDesignation := if i = 0 then .X else .Y }

/-- The loop of lines 95-114, `for (i=0; i<data.size(); ++i) { ... }`, from
index `i` on, `children` being the columns added so far.  The first argument
bounds the number of rounds. -/
def buildColumns (f : AsciiSpreadsheetImportFilter) (column_names : List String)
    (data : Table) : Nat → Nat → List Column → Option (List Column)
  | 0, i, children => if i < data.length then none else some children
  | fuel + 1, i, children =>
    if i < data.length then
      match column_names[i]?, data[i]? with
      | some name, some cells =>
        buildColumns f column_names data fuel (i + 1) (children ++ [newColumn f i name cells])
      | _, _ => none
    else some children

/-- `AsciiSpreadsheetImportFilter::importAspect`.  `input` holds the lines that
the text stream over the input device delivers. -/
def importAspect (tk : Toolkit) (f : AsciiSpreadsheetImportFilter) (input : List String) :
    Option Spreadsheet :=
  match gather tk f input with
  | none => none
  | some (column_names, data) =>
    -- build a Spreadsheet from the gathered data
    match buildColumns f column_names data data.length 0 [] with
    | none => none
    | some children => some { name := tk.tr "Spreadsheet", children := children }

/-! ## Lines of the input -/

/-- The number of lines the filter skips: `m_ignored_lines`, none when it is
negative. -/
def ignored (f : AsciiSpreadsheetImportFilter) : Nat := f.m_ignored_lines.toNat

/-- The first line after the skipped ones; the empty line when the input has
no such line. -/
def firstLine (f : AsciiSpreadsheetImportFilter) (input : List String) : String :=
  input.getD (ignored f) ""

/-- The lines after the first line that is not skipped. -/
def laterLines (f : AsciiSpreadsheetImportFilter) (input : List String) : List String :=
  input.drop (ignored f + 1)

/-- The number of data rows that the first row contributes. -/
def firstDataRows (f : AsciiSpreadsheetImportFilter) : Nat :=
  if f.m_first_row_names_columns then 0 else 1

/-- The cell of column `c` in data row `r` of a table, when there is one. -/
def cell (data : Table) (c r : Nat) : Option String :=
  match data[c]? with
  | none => none
  | some column => column[r]?

/-! ## The result in closed form -/

/-- The row of the first line that is not skipped. -/
def firstRow (tk : Toolkit) (f : AsciiSpreadsheetImportFilter) (input : List String) :
    List String :=
  fields tk f (firstLine f input)

/-- The column names in closed form: the first row, or the numbers from 1. -/
def expectedNames (tk : Toolkit) (f : AsciiSpreadsheetImportFilter) (input : List String) :
    List String :=
  if f.m_first_row_names_columns then firstRow tk f input
  else (List.range (firstRow tk f input).length).map fun i => QString.number (i + 1)

/-- The cells of column `c` in closed form: field `c` of the first row unless
that row names the columns, then field `c` of every later line, the empty
string where a line has no such field. -/
def expectedCells (tk : Toolkit) (f : AsciiSpreadsheetImportFilter) (input : List String)
    (c : Nat) : List String :=
  (if f.m_first_row_names_columns then [] else [(firstRow tk f input).getD c ""]) ++
    (laterLines f input).map fun l => (fields tk f l).getD c ""

/-! ## The tree-view combo box -/

/-- The identity of a `QObject` (the value of a pointer to it). -/
abbrev QObjectId := Nat

/-- `QEvent::MouseButtonPress`, a value of the enumeration `QEvent::Type`. -/
def QEvent.MouseButtonPress : Nat := 2

/-- A `QEvent`: the value `type()` returns. -/
structure QEvent where
  type : Nat
  deriving DecidableEq, Repr

/-- The state of a `TreeViewComboBox`: the objects it owns, its two class
lists, and what its member functions show and change on screen. -/
structure TreeViewComboBox where
  /-- `this` -/
  self : QObjectId
  m_treeView : QObjectId
  m_lineEdit : QObjectId
  m_groupBox : QObjectId
  m_topLevelClasses : List String
  m_selectableClasses : List String
  /-- whether the popup `m_groupBox` is visible -/
  groupBoxVisible : Bool
  /-- the widget that `setFocus()` was called on last -/
  focusWidget : Option QObjectId
  /-- the text of item 0 of the combo box -/
  itemText : String
  /-- the text of `m_lineEdit` -/
  lineEditText : String
  deriving DecidableEq, Repr

/-- `m_groupBox->hide()` -/
def TreeViewComboBox.hideGroupBox (w : TreeViewComboBox) : TreeViewComboBox :=
  { w with groupBoxVisible := false }

/-- `this->setFocus()` -/
def TreeViewComboBox.setFocus (w : TreeViewComboBox) : TreeViewComboBox :=
  { w with focusWidget := some w.self }

/-- `TreeViewComboBox::hidePopup` -/
def TreeViewComboBox.hidePopup (w : TreeViewComboBox) : TreeViewComboBox :=
  w.hideGroupBox

/-- `TreeViewComboBox::eventFilter`: the value returned and the widget
afterwards. -/
def TreeViewComboBox.eventFilter (w : TreeViewComboBox) (object : QObjectId) (event : QEvent) :
    Bool × TreeViewComboBox :=
  if object = w.m_groupBox ∧ event.type = QEvent.MouseButtonPress then
    (true, w.hideGroupBox.setFocus)
  else (false, w)

/-! ## Sample values -/

/-- Settings for comma separated text: nothing skipped, the first row is data,
white space kept, cells kept as strings. -/
def csvFilter : AsciiSpreadsheetImportFilter :=
  { m_ignored_lines := 0
    m_separator := ","
    m_first_row_names_columns := false
    m_trim_whitespace := false
    m_simplify_whitespace := false
    m_convert_to_numeric := false
    m_numeric_locale := ⟨"C"⟩ }

/-- A combo box whose popup is open. -/
def openComboBox : TreeViewComboBox :=
  { self := 1
    m_treeView := 2
    m_lineEdit := 3
    m_groupBox := 4
    m_topLevelClasses := ["Folder", "Spreadsheet"]
    m_selectableClasses := ["Column"]
    groupBoxVisible := true
    focusWidget := some 3
    itemText := ""
    lineEditText := "" }

/-! ## The loops of `importAspect` -/

theorem readLine_fst (s : QTextStream) : s.readLine.1 = s.pending.getD 0 "" := by
  cases s with
  | mk p => cases p <;> rfl

theorem readLine_pending (s : QTextStream) : s.readLine.2.pending = s.pending.drop 1 := by
  cases s with
  | mk p => cases p <;> rfl

theorem skipIgnored_pending (n : Nat) (s : QTextStream) :
    (skipIgnored n s).pending = s.pending.drop n := by
  induction n generalizing s with
  | zero => rfl
  | succ n ih =>
    rw [skipIgnored, ih, readLine_pending, List.drop_drop, Nat.add_comm]

theorem initData_eq (n : Nat) (data : Table) :
    initData n data = data ++ List.replicate n [] := by
  induction n generalizing data with
  | zero => simp [initData]
  | succ n ih =>
    rw [initData, ih, List.append_assoc]
    rfl

theorem appendCell_some (data : Table) (i : Nat) (s : String) (h : i < data.length) :
    ∃ d, appendCell data i s = some d ∧ d.length = data.length ∧
      ∀ c, d[c]? = if c = i then (data[c]?).map (· ++ [s]) else data[c]? := by
  refine ⟨data.set i (data[i] ++ [s]), by simp [appendCell, h], by simp, ?_⟩
  intro c
  by_cases hc : c = i
  · subst hc
    simp [List.getElem?_set, h]
  · have hc2 : i ≠ c := fun e => hc e.symm
    simp [List.getElem?_set, hc, hc2]

theorem getD_of_lt (row : List String) (i : Nat) (h : i < row.length) :
    row[i]? = some (row.getD i "") := by
  simp [List.getD_eq_getElem?_getD, List.getElem?_eq_getElem h]

theorem copyLoop_some (row : List String) (fuel i : Nat) (data : Table)
    (hfuel : row.length ≤ i + fuel) :
    ∃ k d, copyLoop row fuel i data = some (k, d) ∧ d.length = data.length ∧
      i ≤ k ∧ (k < data.length → row.length ≤ k) ∧
      ∀ c, d[c]? = if i ≤ c ∧ c < k then (data[c]?).map (· ++ [row.getD c ""])
        else data[c]? := by
  induction fuel generalizing i data with
  | zero =>
    have hi : ¬ i < row.length := by omega
    refine ⟨i, data, by simp [copyLoop, hi], rfl, le_refl _, fun _ => by omega, ?_⟩
    intro c
    have : ¬ (i ≤ c ∧ c < i) := by omega
    simp [this]
  | succ fuel ih =>
    by_cases hcond : i < row.length ∧ i < data.length
    · obtain ⟨d1, hd1, hlen1, hget1⟩ := appendCell_some data i (row.getD i "") hcond.2
      obtain ⟨k, d, hd, hlen, hik, hk, hget⟩ := ih (i + 1) d1 (by omega)
      refine ⟨k, d, ?_, by omega, by omega, by rw [← hlen1]; exact hk, ?_⟩
      · simp only [copyLoop, hcond, and_self, if_true, getD_of_lt row i hcond.1, hd1, hd]
      · intro c
        rw [hget c, hget1 c]
        by_cases h1 : c = i
        · subst h1
          have h2 : ¬ (c + 1 ≤ c ∧ c < k) := by omega
          have h3 : c ≤ c ∧ c < k := by omega
          simp [h2, h3]
        · by_cases h2 : i + 1 ≤ c ∧ c < k
          · have h3 : i ≤ c ∧ c < k := by omega
            simp [h1, h2, h3]
          · have h3 : ¬ (i ≤ c ∧ c < k) := by omega
            simp [h1, h2, h3]
    · refine ⟨i, data, by simp [copyLoop, hcond], rfl, le_refl _, fun h => by omega, ?_⟩
      intro c
      have : ¬ (i ≤ c ∧ c < i) := by omega
      simp [this]

theorem padLoop_some (fuel i : Nat) (data : Table) (hfuel : data.length ≤ i + fuel) :
    ∃ d, padLoop fuel i data = some d ∧ d.length = data.length ∧
      ∀ c, d[c]? = if i ≤ c then (data[c]?).map (· ++ [""]) else data[c]? := by
  induction fuel generalizing i data with
  | zero =>
    have hi : ¬ i < data.length := by omega
    refine ⟨data, by simp [padLoop, hi], rfl, ?_⟩
    intro c
    by_cases h : i ≤ c
    · have : data[c]? = none := List.getElem?_eq_none (by omega)
      simp [h, this]
    · simp [h]
  | succ fuel ih =>
    by_cases hcond : i < data.length
    · obtain ⟨d1, hd1, hlen1, hget1⟩ := appendCell_some data i "" hcond
      obtain ⟨d, hd, hlen, hget⟩ := ih (i + 1) d1 (by omega)
      refine ⟨d, ?_, by omega, ?_⟩
      · simp only [padLoop, hcond, if_true, hd1, hd]
      · intro c
        rw [hget c, hget1 c]
        by_cases h1 : c = i
        · subst h1
          simp
        · by_cases h2 : i + 1 ≤ c
          · have h3 : i ≤ c := by omega
            simp [h1, h2, h3]
          · have h3 : ¬ i ≤ c := by omega
            simp [h1, h2, h3]
    · refine ⟨data, by simp [padLoop, hcond], rfl, ?_⟩
      intro c
      by_cases h : i ≤ c
      · have : data[c]? = none := List.getElem?_eq_none (by omega)
        simp [h, this]
      · simp [h]

theorem appendRow_some (row : List String) (data : Table) :
    ∃ d, appendRow row data = some d ∧ d.length = data.length ∧
      ∀ c, d[c]? = (data[c]?).map (· ++ [row.getD c ""]) := by
  obtain ⟨k, d1, hd1, hlen1, _, hk, hget1⟩ := copyLoop_some row row.length 0 data (by omega)
  obtain ⟨d, hd, hlen, hget⟩ := padLoop_some d1.length k d1 (by omega)
  refine ⟨d, ?_, by omega, ?_⟩
  · simp only [appendRow, hd1, hd]
  · intro c
    rw [hget c, hget1 c]
    by_cases hc : c < data.length
    · by_cases h1 : c < k
      · have h2 : ¬ k ≤ c := by omega
        simp [h1, h2]
      · have h2 : k ≤ c := by omega
        have h3 : row[c]? = none := List.getElem?_eq_none (by omega)
        simp [h1, h2, h3, List.getD_eq_getElem?_getD]
    · have : data[c]? = none := List.getElem?_eq_none (by omega)
      simp [this]

theorem readRest_some (tk : Toolkit) (f : AsciiSpreadsheetImportFilter) (fuel : Nat)
    (s : QTextStream) (data : Table) (hfuel : s.pending.length ≤ fuel) :
    ∃ d, readRest tk f fuel s data = some d ∧ d.length = data.length ∧
      ∀ c, d[c]? = (data[c]?).map (· ++ s.pending.map fun l => (fields tk f l).getD c "") := by
  induction fuel generalizing s data with
  | zero =>
    have hp : s.pending = [] := List.length_eq_zero.mp (by omega)
    refine ⟨data, by simp [readRest, QTextStream.atEnd, hp], rfl, ?_⟩
    intro c
    simp [hp]
  | succ fuel ih =>
    cases hp : s.pending with
    | nil =>
      refine ⟨data, by simp [readRest, QTextStream.atEnd, hp], rfl, ?_⟩
      intro c
      simp
    | cons l rest =>
      have hrow : readRow tk f s = (fields tk f l, ⟨rest⟩) := by
        simp [readRow, QTextStream.readLine, hp]
      obtain ⟨d1, hd1, hlen1, hget1⟩ := appendRow_some (fields tk f l) data
      obtain ⟨d, hd, hlen, hget⟩ := ih ⟨rest⟩ d1 (by
        have : s.pending.length = rest.length + 1 := by rw [hp]; rfl
        show rest.length ≤ fuel
        omega)
      refine ⟨d, ?_, by omega, ?_⟩
      · simp only [readRest, QTextStream.atEnd, hp, hrow, hd1, hd]
        rfl
      · intro c
        rw [hget c, hget1 c]
        cases data[c]? <;> simp

theorem firstRowLoop_some (row : List String) (fuel i : Nat) (column_names : List String)
    (data : Table) (hfuel : row.length ≤ i + fuel) (hdata : row.length ≤ data.length) :
    ∃ d, firstRowLoop row fuel i column_names data =
        some (column_names ++ (List.range' i (row.length - i)).map
          (fun j => QString.number (j + 1)), d) ∧
      d.length = data.length ∧
      ∀ c, d[c]? = if i ≤ c ∧ c < row.length then (data[c]?).map (· ++ [row.getD c ""])
        else data[c]? := by
  induction fuel generalizing i column_names data with
  | zero =>
    have hi : ¬ i < row.length := by omega
    have h0 : row.length - i = 0 := by omega
    refine ⟨data, by simp [firstRowLoop, hi, h0], rfl, ?_⟩
    intro c
    have : ¬ (i ≤ c ∧ c < row.length) := by omega
    simp [this]
  | succ fuel ih =>
    by_cases hcond : i < row.length
    · obtain ⟨d1, hd1, hlen1, hget1⟩ := appendCell_some data i (row.getD i "") (by omega)
      obtain ⟨d, hd, hlen, hget⟩ :=
        ih (i + 1) (column_names ++ [QString.number (i + 1)]) d1 (by omega) (by omega)
      have hsplit : row.length - i = (row.length - (i + 1)) + 1 := by omega
      refine ⟨d, ?_, by omega, ?_⟩
      · simp only [firstRowLoop, hcond, if_true, getD_of_lt row i hcond, hd1, hd]
        rw [hsplit, List.range'_succ]
        simp
      · intro c
        rw [hget c, hget1 c]
        by_cases h1 : c = i
        · subst h1
          have h2 : ¬ (c + 1 ≤ c ∧ c < row.length) := by omega
          have h3 : c ≤ c ∧ c < row.length := by omega
          simp [h2, h3]
        · by_cases h2 : i + 1 ≤ c ∧ c < row.length
          · have h3 : i ≤ c ∧ c < row.length := by omega
            simp [h1, h2, h3]
          · have h3 : ¬ (i ≤ c ∧ c < row.length) := by omega
            simp [h1, h2, h3]
    · have h0 : row.length - i = 0 := by omega
      refine ⟨data, by simp [firstRowLoop, hcond, h0], rfl, ?_⟩
      intro c
      have : ¬ (i ≤ c ∧ c < row.length) := by omega
      simp [this]

theorem buildColumns_some (f : AsciiSpreadsheetImportFilter) (column_names : List String)
    (data : Table) (fuel i : Nat) (children : List Column)
    (hfuel : data.length ≤ i + fuel) (hnames : data.length ≤ column_names.length) :
    buildColumns f column_names data fuel i children =
      some (children ++ (List.range' i (data.length - i)).map
        (fun j => newColumn f j (column_names.getD j "") (data.getD j []))) := by
  induction fuel generalizing i children with
  | zero =>
    have hi : ¬ i < data.length := by omega
    have h0 : data.length - i = 0 := by omega
    simp [buildColumns, hi, h0]
  | succ fuel ih =>
    by_cases hcond : i < data.length
    · have hsplit : data.length - i = (data.length - (i + 1)) + 1 := by omega
      have h1 : column_names[i]? = some (column_names.getD i "") := by
        simp [List.getD_eq_getElem?_getD, List.getElem?_eq_getElem (show i < column_names.length by omega)]
      have h2 : data[i]? = some (data.getD i []) := by
        simp [List.getD_eq_getElem?_getD, List.getElem?_eq_getElem hcond]
      simp only [buildColumns, hcond, if_true, h1, h2]
      rw [ih (i + 1) _ (by omega), hsplit, List.range'_succ]
      simp
    · have h0 : data.length - i = 0 := by omega
      simp [buildColumns, hcond, h0]

theorem getD_drop_zero (input : List String) (k : Nat) :
    (input.drop k).getD 0 "" = input.getD k "" := by
  simp [List.getD_eq_getElem?_getD, List.getElem?_drop]

theorem gather_eq (tk : Toolkit) (f : AsciiSpreadsheetImportFilter) (input : List String) :
    ∃ data, gather tk f input = some (expectedNames tk f input, data) ∧
      data.length = (firstRow tk f input).length ∧
      ∀ c, c < (firstRow tk f input).length → data[c]? = some (expectedCells tk f input c) := by
  have hskip : (skipIgnored f.m_ignored_lines.toNat ⟨input⟩).pending = input.drop (ignored f) :=
    skipIgnored_pending _ _
  have hrow : (readRow tk f (skipIgnored f.m_ignored_lines.toNat ⟨input⟩)).1 =
      firstRow tk f input := by
    simp only [readRow, readLine_fst, hskip, getD_drop_zero, firstRow, firstLine]
  have hrest : (readRow tk f (skipIgnored f.m_ignored_lines.toNat ⟨input⟩)).2.pending =
      laterLines f input := by
    simp only [readRow, readLine_pending, hskip, List.drop_drop, laterLines]
  by_cases hflag : f.m_first_row_names_columns = true
  · obtain ⟨d, hd, hlen, hget⟩ := readRest_some tk f
      (readRow tk f (skipIgnored f.m_ignored_lines.toNat ⟨input⟩)).2.pending.length
      (readRow tk f (skipIgnored f.m_ignored_lines.toNat ⟨input⟩)).2
      (initData (firstRow tk f input).length []) (le_refl _)
    refine ⟨d, ?_, ?_, ?_⟩
    · simp only [gather, hrow, hflag, if_true, hd, expectedNames]
    · rw [hlen, initData_eq]
      simp
    · intro c hc
      rw [hget c, hrest, initData_eq]
      simp [List.getElem?_replicate, hc, expectedCells, hflag]
  · obtain ⟨d1, hd1, hlen1, hget1⟩ := firstRowLoop_some (firstRow tk f input)
      (firstRow tk f input).length 0 [] (initData (firstRow tk f input).length [])
      (by omega) (by rw [initData_eq]; simp)
    obtain ⟨d, hd, hlen, hget⟩ := readRest_some tk f
      (readRow tk f (skipIgnored f.m_ignored_lines.toNat ⟨input⟩)).2.pending.length
      (readRow tk f (skipIgnored f.m_ignored_lines.toNat ⟨input⟩)).2 d1 (le_refl _)
    have hnames : ([] : List String) ++ (List.range' 0 ((firstRow tk f input).length - 0)).map
        (fun j => QString.number (j + 1)) = expectedNames tk f input := by
      simp [expectedNames, hflag, List.range_eq_range']
    rw [hnames] at hd1
    refine ⟨d, ?_, ?_, ?_⟩
    · have hfalse : f.m_first_row_names_columns = false := by
        simpa using hflag
      simp only [gather, hrow, hfalse, hd1, hd, Bool.false_eq_true, if_false]
    · rw [hlen, hlen1, initData_eq]
      simp
    · intro c hc
      rw [hget c, hrest, hget1 c, initData_eq]
      simp [List.getElem?_replicate, hc, expectedCells, hflag]

theorem importAspect_eq (tk : Toolkit) (f : AsciiSpreadsheetImportFilter)
    (input : List String) :
    importAspect tk f input = some
      { name := tk.tr "Spreadsheet"
        children := (List.range (firstRow tk f input).length).map fun c =>
          newColumn f c ((expectedNames tk f input).getD c "") (expectedCells tk f input c) } := by
  obtain ⟨data, hg, hlen, hget⟩ := gather_eq tk f input
  have hnames : data.length ≤ (expectedNames tk f input).length := by
    rw [hlen, expectedNames]
    split <;> simp
  simp only [importAspect, hg, buildColumns_some f _ data data.length 0 [] (by omega) hnames]
  congr 2
  rw [List.nil_append, Nat.sub_zero, hlen, List.range_eq_range']
  apply List.map_congr_left
  intro c hc
  have hc2 : c < (firstRow tk f input).length := by
    simpa using hc
  rw [List.getD_eq_getElem?_getD data, hget c hc2]
  rfl

theorem gather_closed (tk : Toolkit) (f : AsciiSpreadsheetImportFilter)
    (input : List String) :
    gather tk f input = some (expectedNames tk f input,
      (List.range (firstRow tk f input).length).map (expectedCells tk f input)) := by
  obtain ⟨data, hg, hlen, hget⟩ := gather_eq tk f input
  rw [hg]
  congr 2
  apply List.ext_getElem?
  intro c
  by_cases hc : c < (firstRow tk f input).length
  · rw [hget c hc, List.getElem?_map, List.getElem?_range hc]
    rfl
  · rw [List.getElem?_eq_none (by omega), List.getElem?_eq_none (by simp; omega)]

theorem expectedNames_length (tk : Toolkit) (f : AsciiSpreadsheetImportFilter)
    (input : List String) :
    (expectedNames tk f input).length = (firstRow tk f input).length := by
  rw [expectedNames]
  split <;> simp

theorem expectedCells_length (tk : Toolkit) (f : AsciiSpreadsheetImportFilter)
    (input : List String) (c : Nat) :
    (expectedCells tk f input c).length = firstDataRows f + (laterLines f input).length := by
  rw [expectedCells, firstDataRows]
  split <;> simp [Nat.add_comm]

theorem expectedCells_later (tk : Toolkit) (f : AsciiSpreadsheetImportFilter)
    (input : List String) (c j : Nat) (hj : j < (laterLines f input).length) :
    (expectedCells tk f input c)[firstDataRows f + j]? =
      some ((fields tk f (laterLines f input)[j]).getD c "") := by
  have hlen : (if f.m_first_row_names_columns = true then ([] : List String)
      else [(firstRow tk f input).getD c ""]).length = firstDataRows f := by
    rw [firstDataRows]
    split <;> rfl
  rw [expectedCells, List.getElem?_append_right (by omega), hlen, Nat.add_sub_cancel_left,
    List.getElem?_map, List.getElem?_eq_getElem hj]
  rfl

theorem closed_congr (tk : Toolkit) (f g : AsciiSpreadsheetImportFilter)
    (M N : List String) (hfields : ∀ l, fields tk f l = fields tk g l)
    (hflag : f.m_first_row_names_columns = g.m_first_row_names_columns)
    (hfirst : firstLine f M = firstLine g N) (hlater : laterLines f M = laterLines g N)
    (hcolumn : ∀ i name cells, newColumn f i name cells = newColumn g i name cells) :
    gather tk f M = gather tk g N ∧ importAspect tk f M = importAspect tk g N := by
  have hf : fields tk f = fields tk g := funext hfields
  have hrow : firstRow tk f M = firstRow tk g N := by
    rw [firstRow, firstRow, hf, hfirst]
  have hnames : expectedNames tk f M = expectedNames tk g N := by
    rw [expectedNames, expectedNames, hrow, hflag]
  have hcells : expectedCells tk f M = expectedCells tk g N := by
    funext c
    rw [expectedCells, expectedCells, hrow, hflag, hlater, hf]
  have hnew : newColumn f = newColumn g := by
    funext i name cells
    exact hcolumn i name cells
  constructor
  · rw [gather_closed, gather_closed, hnames, hcells, hrow]
  · rw [importAspect_eq, importAspect_eq, hnames, hcells, hrow, hnew]

/-! ## Properties of `importAspect` -/

/-- C1: `importAspect` maps the lines after the first row to cells position by
position.  The local `data` is built (no access fails); every one of its `n`
columns has one cell for the first row, unless that row names the columns, and
then one cell for each later line, in the order of the lines; the cell of
column `c` for later line `j` is field `c` of the processed and split line when
the line has such a field, and the empty string otherwise.  Fields with index
`n` or more go nowhere, `data` having `n` columns with one cell a line each. -/
theorem importAspect_rows_by_position (tk : Toolkit) (f : AsciiSpreadsheetImportFilter)
    (input : List String) :
    ∃ column_names data, gather tk f input = some (column_names, data) ∧
      (∀ c, c < data.length → ∃ column, data[c]? = some column ∧
        column.length = firstDataRows f + (laterLines f input).length) ∧
      ∀ (j : Nat) (hj : j < (laterLines f input).length) (c : Nat), c < data.length →
        (c < (fields tk f (laterLines f input)[j]).length →
          cell data c (firstDataRows f + j) = (fields tk f (laterLines f input)[j])[c]?) ∧
        ((fields tk f (laterLines f input)[j]).length ≤ c →
          cell data c (firstDataRows f + j) = some "") := by
  refine ⟨_, _, gather_closed tk f input, ?_, ?_⟩
  · intro c hc
    have hc2 : c < (firstRow tk f input).length := by simpa using hc
    refine ⟨expectedCells tk f input c, ?_, expectedCells_length tk f input c⟩
    rw [List.getElem?_map, List.getElem?_range hc2]
    rfl
  · intro j hj c hc
    have hc2 : c < (firstRow tk f input).length := by simpa using hc
    have hcell : cell ((List.range (firstRow tk f input).length).map (expectedCells tk f input))
        c (firstDataRows f + j) = some ((fields tk f (laterLines f input)[j]).getD c "") := by
      rw [cell, List.getElem?_map, List.getElem?_range hc2]
      exact expectedCells_later tk f input c j hj
    rw [hcell, List.getD_eq_getElem?_getD]
    constructor
    · intro h
      rw [List.getElem?_eq_getElem h]
      rfl
    · intro h
      rw [List.getElem?_eq_none h]
      rfl

/-- C2: the spreadsheet `importAspect` returns has as many columns as the
first line after the skipped ones has fields (a missing line being the empty
line), whatever the later lines are: every input with the same first line
gives the same number of columns. -/
theorem importAspect_column_count (tk : Toolkit) (f : AsciiSpreadsheetImportFilter)
    (input : List String) :
    ∃ sheet, importAspect tk f input = some sheet ∧
      sheet.children.length = (fields tk f (input.getD f.m_ignored_lines.toNat "")).length ∧
      ∀ input2, input2.getD f.m_ignored_lines.toNat "" = input.getD f.m_ignored_lines.toNat "" →
        ∃ sheet2, importAspect tk f input2 = some sheet2 ∧
          sheet2.children.length = sheet.children.length := by
  refine ⟨_, importAspect_eq tk f input, ?_, ?_⟩
  · simp [firstRow, firstLine, ignored]
  · intro input2 h2
    refine ⟨_, importAspect_eq tk f input2, ?_⟩
    simp only [List.length_map, List.length_range, firstRow, firstLine, ignored, h2]

/-- C3: the table `data` that `importAspect` builds is rectangular: every
column list has as many cells as there are lines after the first line that is
not skipped, plus one when `m_first_row_names_columns` is false. -/
theorem importAspect_table_rectangular (tk : Toolkit) (f : AsciiSpreadsheetImportFilter)
    (input : List String) :
    ∃ column_names data, gather tk f input = some (column_names, data) ∧
      ∀ column ∈ data, column.length =
        (input.drop (f.m_ignored_lines.toNat + 1)).length +
          (if f.m_first_row_names_columns = true then 0 else 1) := by
  refine ⟨_, _, gather_closed tk f input, ?_⟩
  intro column hmem
  obtain ⟨c, _, rfl⟩ := List.mem_map.mp hmem
  rw [expectedCells_length, firstDataRows, Nat.add_comm]
  rfl

/-- C4: the names of the columns `importAspect` creates.  The columns of the
spreadsheet carry the names in `column_names`, in order.  When
`m_first_row_names_columns` is true these are the fields of the first line that
is not skipped, and the cells of every column come from the later lines only;
when it is false, column `i` (from 0) is named by the decimal representation of
`i + 1` and field `i` of the first line is the first cell of column `i`. -/
theorem importAspect_column_names (tk : Toolkit) (f : AsciiSpreadsheetImportFilter)
    (input : List String) :
    ∃ sheet column_names data, importAspect tk f input = some sheet ∧
      gather tk f input = some (column_names, data) ∧
      sheet.children.map Column.name = column_names ∧
      (f.m_first_row_names_columns = true →
        column_names = fields tk f (firstLine f input) ∧
        ∀ c, c < data.length →
          data[c]? = some ((laterLines f input).map fun l => (fields tk f l).getD c "")) ∧
      (f.m_first_row_names_columns = false →
        column_names = (List.range (fields tk f (firstLine f input)).length).map
          (fun i => Nat.repr (i + 1)) ∧
        ∀ i, i < (fields tk f (firstLine f input)).length →
          cell data i 0 = (fields tk f (firstLine f input))[i]?) := by
  refine ⟨_, _, _, importAspect_eq tk f input, gather_closed tk f input, ?_, ?_, ?_⟩
  · apply List.ext_getElem?
    intro c
    by_cases hc : c < (firstRow tk f input).length
    · have hc2 : c < (expectedNames tk f input).length := by
        rw [expectedNames_length]
        exact hc
      rw [List.map_map, List.getElem?_map, List.getElem?_range hc,
        List.getElem?_eq_getElem hc2]
      simp [newColumn, List.getD_eq_getElem?_getD, List.getElem?_eq_getElem hc2]
    · rw [List.getElem?_eq_none (by simp; omega),
        List.getElem?_eq_none (by rw [expectedNames_length]; omega)]
  · intro hflag
    refine ⟨by simp [expectedNames, hflag, firstRow], ?_⟩
    intro c hc
    have hc2 : c < (firstRow tk f input).length := by simpa using hc
    rw [List.getElem?_map, List.getElem?_range hc2]
    simp [expectedCells, hflag]
  · intro hflag
    refine ⟨by rw [expectedNames, if_neg (by simp [hflag])]; rfl, ?_⟩
    intro i hi
    have hi2 : i < (firstRow tk f input).length := hi
    rw [cell, List.getElem?_map, List.getElem?_range hi2]
    simp [expectedCells, hflag, firstRow, List.getD_eq_getElem?_getD,
      List.getElem?_eq_getElem hi]

/-- C5: skipping ignored lines.  With `m_ignored_lines = k` the filter returns
on the lines `L` what it returns with `m_ignored_lines = 0` on `L` without its
first `k` lines, for the local `column_names` and `data` and for the
spreadsheet; two inputs that differ in the skipped lines only give the same
result. -/
theorem importAspect_ignored_lines (tk : Toolkit) (f : AsciiSpreadsheetImportFilter)
    (L : List String) (k : Nat) :
    importAspect tk { f with m_ignored_lines := (k : Int) } L =
        importAspect tk { f with m_ignored_lines := 0 } (L.drop k) ∧
      gather tk { f with m_ignored_lines := (k : Int) } L =
        gather tk { f with m_ignored_lines := 0 } (L.drop k) ∧
      ∀ L2 : List String, L2.drop k = L.drop k →
        importAspect tk { f with m_ignored_lines := (k : Int) } L2 =
          importAspect tk { f with m_ignored_lines := (k : Int) } L := by
  have hboth : ∀ M : List String,
      gather tk { f with m_ignored_lines := (k : Int) } M =
          gather tk { f with m_ignored_lines := 0 } (M.drop k) ∧
        importAspect tk { f with m_ignored_lines := (k : Int) } M =
          importAspect tk { f with m_ignored_lines := 0 } (M.drop k) := by
    intro M
    refine closed_congr tk _ _ M (M.drop k) (fun _ => rfl) rfl ?_ ?_ (fun _ _ _ => rfl)
    · show M.getD (Int.toNat (k : Int)) "" = (M.drop k).getD (Int.toNat 0) ""
      rw [Int.toNat_ofNat, Int.toNat_zero, getD_drop_zero]
    · show M.drop (Int.toNat (k : Int) + 1) = (M.drop k).drop (Int.toNat 0 + 1)
      rw [Int.toNat_ofNat, Int.toNat_zero, List.drop_drop]
  refine ⟨(hboth L).2, (hboth L).1, ?_⟩
  intro L2 h2
  rw [(hboth L2).2, (hboth L).2, h2]

/-- C6: `importAspect` has no failure path.  For every input and every setting
it returns a spreadsheet, so that none of the checked accesses `data[i]`,
`row[i]` and `column_names[i]` is out of bounds (and no loop runs longer than
its bound); `column_names` and `data` have the same length when the columns
are built. -/
theorem importAspect_total (tk : Toolkit) (f : AsciiSpreadsheetImportFilter)
    (input : List String) :
    (∃ sheet, importAspect tk f input = some sheet) ∧
      ∃ column_names data, gather tk f input = some (column_names, data) ∧
        column_names.length = data.length := by
  refine ⟨⟨_, importAspect_eq tk f input⟩, _, _, gather_closed tk f input, ?_⟩
  rw [expectedNames_length]
  simp

/-! ## `importAspect` on sample inputs -/

/-- A checked access outside the table is reported. -/
theorem appendCell_outside : appendCell [["a"]] 1 "x" = none := by decide

/-- The loop that builds the columns reports a name list shorter than `data`. -/
theorem buildColumns_short_names : buildColumns csvFilter ["1"] [["a"], ["b"]] 2 0 [] = none := by
  decide

/-- A line with too few fields is padded and one with too many is cut. -/
theorem gather_sample :
    gather qt csvFilter ["a,b", "c", "d,e,f"] =
      some (["1", "2"], [["a", "c", "d"], ["b", "", "e"]]) := by
  decide

/-- The first row names the columns, after one skipped line, with simplified
white space. -/
theorem gather_sample_named :
    gather qt { csvFilter with m_ignored_lines := 1, m_first_row_names_columns := true,
                                m_simplify_whitespace := true, m_separator := " " }
        ["# header", "  x   y ", "1 2", "3"] =
      some (["x", "y"], [["1", "3"], ["2", ""]]) := by
  decide

/-- An empty input gives one column with one empty cell. -/
theorem importAspect_sample_empty :
    importAspect qt csvFilter [] =
      some { name := "Spreadsheet", children := [⟨"1", .text [""], .X⟩] } := by
  decide

/-- Numeric conversion and plot designations. -/
theorem importAspect_sample_numeric :
    importAspect qt { csvFilter with m_convert_to_numeric := true } ["1,2", "3,4"] =
      some { name := "Spreadsheet"
             children := [⟨"1", .numeric ⟨"C"⟩ ["1", "3"], .X⟩,
                          ⟨"2", .numeric ⟨"C"⟩ ["2", "4"], .Y⟩] } := by
  decide

/-! ## Properties of `TreeViewComboBox::eventFilter` -/

/-- C7: `eventFilter` returns true exactly when the watched object is the popup
group box and the event is a `MouseButtonPress`; the popup is hidden then.  For
every other object and event it returns false and the widget is as before. -/
theorem eventFilter_catches_mouse_press (w : TreeViewComboBox) (object : QObjectId)
    (event : QEvent) :
    ((w.eventFilter object event).1 = true ↔
        (object = w.m_groupBox ∧ event.type = QEvent.MouseButtonPress)) ∧
      ((object = w.m_groupBox ∧ event.type = QEvent.MouseButtonPress) →
        (w.eventFilter object event).2.groupBoxVisible = false) ∧
      (¬ (object = w.m_groupBox ∧ event.type = QEvent.MouseButtonPress) →
        (w.eventFilter object event).1 = false ∧ (w.eventFilter object event).2 = w) := by
  by_cases h : object = w.m_groupBox ∧ event.type = QEvent.MouseButtonPress
  · simp [TreeViewComboBox.eventFilter, h, TreeViewComboBox.hideGroupBox,
      TreeViewComboBox.setFocus]
  · simp [TreeViewComboBox.eventFilter, h]

/-- A mouse press on the popup closes it and is consumed. -/
theorem eventFilter_sample_press :
    openComboBox.eventFilter 4 ⟨QEvent.MouseButtonPress⟩ =
      (true, { openComboBox with groupBoxVisible := false, focusWidget := some 1 }) := by
  decide

/-- A mouse press on another object and another event on the popup pass. -/
theorem eventFilter_sample_pass :
    openComboBox.eventFilter 2 ⟨QEvent.MouseButtonPress⟩ = (false, openComboBox) ∧
      openComboBox.eventFilter 4 ⟨3⟩ = (false, openComboBox) := by
  decide

end LabPlot
